import Mathlib

/-!
Verification of the pulse-shape library
(`modules/measurement/waveform_control/pulse_library.py`).

The library synthesises per-channel waveform sample arrays for three pulse
shapes: a block pulse with IQ modulation (`MW_IQmod_pulse`), a single
Gaussian/DRAG pulse with single-sideband modulation (`SSB_DRAG_pulse`) and a
four-channel multiplexed DRAG pulse (`Mux_DRAG_pulse`).  Numpy arrays are
embedded as `List ℝ`, numpy floating point as exact reals, per-instance
Python attribute dictionaries as Lean structures, and the keyword-argument
dictionaries consumed by `__init__`/`__call__` as records of `Option` fields
(`none` = key absent, `some v` = key supplied with value `v`).
-/

open scoped Classical

noncomputable section

/-- Elementwise combination of three real lists, truncating to the shortest
(the embedding of elementwise numpy arithmetic over three same-length
arrays). -/
def zip3 (f : ℝ → ℝ → ℝ → ℝ) : List ℝ → List ℝ → List ℝ → List ℝ
  | a :: as, b :: bs, c :: cs => f a b c :: zip3 f as bs cs
  | _, _, _ => []

/-- Embedding of `np.where(cond)[0][0]`: index of the first element
satisfying `p` (`np.where` raises on no match; here the list length is
returned only in that unreachable case, as `List.findIdx` would). -/
def npWhereFirstIdx (p : ℝ → Prop) : List ℝ → ℕ
  | [] => 0
  | x :: xs => if p x then 0 else npWhereFirstIdx p xs + 1

/-- Embedding of `np.where(cond)[0][-1]`: index of the last element
satisfying `p`, computed as the first satisfying index of the reversed
list. -/
def npWhereLastIdx (p : ℝ → Prop) (xs : List ℝ) : ℕ :=
  xs.length - 1 - npWhereFirstIdx p xs.reverse

/-- Embedding of `wf[idx0:idx1] += vals` on a waveform buffer `wf`
(numpy in-place slice addition; `vals` has length `idx1 - idx0` at every
call site). -/
def addSlice (wf : List ℝ) (idx0 idx1 : ℕ) (vals : List ℝ) : List ℝ :=
  (List.range wf.length).map fun i =>
    if idx0 ≤ i ∧ i < idx1 then wf.getD i 0 + vals.getD (i - idx0) 0
    else wf.getD i 0

/-- Embedding of the in-place baseline correction
`env -= (env[0] + env[-1]) / 2.` applied to each envelope array before
modulation (`pulse_library.py` lines 156-157, 255, 270). -/
def baselineCorrect (e : List ℝ) : List ℝ :=
  e.map fun v => v - (e.getD 0 0 + e.getD (e.length - 1) 0) / 2

/-- Modelled from the spec: `apply_modulation` is imported from
`modules/measurement/waveform_control/pulse.py`, a file of this repository
that is absent from the sources; §4.1 of the spec gives its closed form.
With `x(t) = 2π·mod_frequency·t + phase·π/180` (phase and `phi_skew` are in
degrees, §6):

  `mod_I(t) = cos(x)·env_I − tan(φ)·sin(x)·env_I + sin(x)·env_Q + tan(φ)·cos(x)·env_Q`
  `mod_Q(t) = (−sin(x)·env_I + cos(x)·env_Q) / (alpha·cos(φ))`

where `φ = phi_skew·π/180`, applied elementwise over `tvals`. -/
def apply_modulation (env_I env_Q tvals : List ℝ)
    (mod_frequency phase phi_skew alpha : ℝ) : List ℝ × List ℝ :=
  (zip3 (fun eI eQ ti =>
      Real.cos (2 * Real.pi * mod_frequency * ti + phase * Real.pi / 180) * eI
        - Real.tan (phi_skew * Real.pi / 180)
          * Real.sin (2 * Real.pi * mod_frequency * ti + phase * Real.pi / 180) * eI
        + Real.sin (2 * Real.pi * mod_frequency * ti + phase * Real.pi / 180) * eQ
        + Real.tan (phi_skew * Real.pi / 180)
          * Real.cos (2 * Real.pi * mod_frequency * ti + phase * Real.pi / 180) * eQ)
      env_I env_Q tvals,
   zip3 (fun eI eQ ti =>
      (-Real.sin (2 * Real.pi * mod_frequency * ti + phase * Real.pi / 180) * eI
        + Real.cos (2 * Real.pi * mod_frequency * ti + phase * Real.pi / 180) * eQ)
        / (alpha * Real.cos (phi_skew * Real.pi / 180)))
      env_I env_Q tvals)

/-- Configuration record of `MW_IQmod_pulse` (block pulse on the I channel
with IQ modulation).  `name`, `start_offset`, `stop_offset` come from the
base `Pulse` class (modelled from the spec §3; `Mux_DRAG_pulse.__init__`
replicates them flatly at lines 192-194). -/
structure MW_IQmod_pulse where
  name : String
  start_offset : ℝ
  stop_offset : ℝ
  I_channel : String
  Q_channel : String
  mod_frequency : ℝ
  amplitude : ℝ
  length : ℝ
  phase : ℝ
  phaselock : Bool
  alpha : ℝ
  phi_skew : ℝ

/-- Keyword arguments accepted by `MW_IQmod_pulse.__init__` and
`MW_IQmod_pulse.__call__`. -/
structure MWKw where
  mod_frequency : Option ℝ := none
  amplitude : Option ℝ := none
  length : Option ℝ := none
  phase : Option ℝ := none
  phaselock : Option Bool := none
  alpha : Option ℝ := none
  phi_skew : Option ℝ := none

/-- Embedding of `MW_IQmod_pulse.__init__` (lines 26-38). -/
def MW_IQmod_pulse.init (name I_channel Q_channel : String) (kw : MWKw) :
    MW_IQmod_pulse :=
  { name := name
    start_offset := 0
    stop_offset := 0
    I_channel := I_channel
    Q_channel := Q_channel
    mod_frequency := kw.mod_frequency.getD 1e6
    amplitude := kw.amplitude.getD 0.1
    length := kw.length.getD 1e-6
    phase := kw.phase.getD 0
    phaselock := kw.phaselock.getD true
    alpha := kw.alpha.getD 1
    phi_skew := kw.phi_skew.getD 0 }

/-- Embedding of `MW_IQmod_pulse.__call__` (lines 40-48): selective
parameter update, every key it pops falls back to the stored value. -/
def MW_IQmod_pulse.call (s : MW_IQmod_pulse) (kw : MWKw) : MW_IQmod_pulse :=
  { s with
    mod_frequency := kw.mod_frequency.getD s.mod_frequency
    amplitude := kw.amplitude.getD s.amplitude
    length := kw.length.getD s.length
    phase := kw.phase.getD s.phase
    phaselock := kw.phaselock.getD s.phaselock
    alpha := kw.alpha.getD s.alpha
    phi_skew := kw.phi_skew.getD s.phi_skew }

/-- Embedding of `self.channels = [I_channel, Q_channel]` (line 30; the
list is fixed at construction for this pulse type). -/
def MW_IQmod_pulse.channels (s : MW_IQmod_pulse) : List String :=
  [s.I_channel, s.Q_channel]

/-- Embedding of `MW_IQmod_pulse.chan_wf` (lines 50-64). -/
def MW_IQmod_pulse.chan_wf (s : MW_IQmod_pulse) (chan : String)
    (tvals : List ℝ) : List ℝ :=
  let t0 := tvals.getD 0 0
  let idx0 := npWhereFirstIdx (fun x => t0 ≤ x) tvals
  let idx1 := npWhereLastIdx (fun x => x ≤ t0 + s.length) tvals + 1
  let wf0 := List.replicate tvals.length (0 : ℝ)
  let tm := if s.phaselock then tvals else tvals.map fun x => x - tvals.getD idx0 0
  let mods := apply_modulation (List.replicate tvals.length 1)
      (List.replicate tvals.length 0) ((tm.drop idx0).take (idx1 - idx0))
      s.mod_frequency s.phase s.phi_skew s.alpha
  if chan = s.I_channel then addSlice wf0 idx0 idx1 mods.1
  else if chan = s.Q_channel then addSlice wf0 idx0 idx1 mods.2
  else wf0

/-- Configuration record of `SSB_DRAG_pulse` (Gaussian on I, derivative of
Gaussian on Q, single-sideband modulated). -/
structure SSB_DRAG_pulse where
  name : String
  start_offset : ℝ
  stop_offset : ℝ
  I_channel : String
  Q_channel : String
  amplitude : ℝ
  sigma : ℝ
  nr_sigma : ℝ
  motzoi : ℝ
  mod_frequency : ℝ
  phase : ℝ
  phaselock : Bool
  alpha : ℝ
  phi_skew : ℝ
  length : ℝ

/-- Keyword arguments accepted by `SSB_DRAG_pulse.__init__` and
`SSB_DRAG_pulse.__call__`.  Python `**kw` accepts any key; `alpha` and
`phi_skew` are popped by `__init__` but NOT by `__call__` (lines 132-142),
which silently ignores them. -/
structure SSBKw where
  amplitude : Option ℝ := none
  sigma : Option ℝ := none
  nr_sigma : Option ℝ := none
  motzoi : Option ℝ := none
  mod_frequency : Option ℝ := none
  phase : Option ℝ := none
  phaselock : Option Bool := none
  alpha : Option ℝ := none
  phi_skew : Option ℝ := none

/-- Embedding of `SSB_DRAG_pulse.__init__` (lines 112-130); `length` is derived as
`sigma * nr_sigma` (line 130). -/
def SSB_DRAG_pulse.init (name I_channel Q_channel : String) (kw : SSBKw) :
    SSB_DRAG_pulse :=
  let sigma := kw.sigma.getD 0.25e-6
  let nr_sigma := kw.nr_sigma.getD 4
  { name := name
    start_offset := 0
    stop_offset := 0
    I_channel := I_channel
    Q_channel := Q_channel
    amplitude := kw.amplitude.getD 0.1
    sigma := sigma
    nr_sigma := nr_sigma
    motzoi := kw.motzoi.getD 0
    mod_frequency := kw.mod_frequency.getD 1e6
    phase := kw.phase.getD 0
    phaselock := kw.phaselock.getD true
    alpha := kw.alpha.getD 1
    phi_skew := kw.phi_skew.getD 0
    length := sigma * nr_sigma }

/-- Embedding of `SSB_DRAG_pulse.__call__` (lines 132-142): selective parameter update.
`alpha` and `phi_skew` are not popped there, so supplying them has no
effect; `length` is recomputed from the updated `sigma`, `nr_sigma`
(line 141). -/
def SSB_DRAG_pulse.call (s : SSB_DRAG_pulse) (kw : SSBKw) : SSB_DRAG_pulse :=
  let sigma := kw.sigma.getD s.sigma
  let nr_sigma := kw.nr_sigma.getD s.nr_sigma
  { s with
    amplitude := kw.amplitude.getD s.amplitude
    sigma := sigma
    nr_sigma := nr_sigma
    motzoi := kw.motzoi.getD s.motzoi
    mod_frequency := kw.mod_frequency.getD s.mod_frequency
    phase := kw.phase.getD s.phase
    phaselock := kw.phaselock.getD s.phaselock
    length := sigma * nr_sigma }

/-- Embedding of `self.channels = [I_channel, Q_channel]` (line 116;
fixed at construction for this pulse type). -/
def SSB_DRAG_pulse.channels (s : SSB_DRAG_pulse) : List String :=
  [s.I_channel, s.Q_channel]

/-- Embedding of `SSB_DRAG_pulse.chan_wf` (lines 144-178).  The source computes
`apply_modulation` with identical arguments in both the I and the Q branch;
the single `mods` here is that common value. -/
def SSB_DRAG_pulse.chan_wf (s : SSB_DRAG_pulse) (chan : String)
    (tvals : List ℝ) : List ℝ :=
  let t0 := tvals.getD 0 0
  let idx0 := npWhereFirstIdx (fun x => t0 ≤ x) tvals
  let idx1 := npWhereLastIdx (fun x => x ≤ t0 + s.length) tvals + 1
  let wf0 := List.replicate tvals.length (0 : ℝ)
  let t := tvals.map fun x => x - t0
  let mu := s.length / 2
  let tm := if s.phaselock then tvals else tvals.map fun x => x - tvals.getD idx0 0
  let gauss_env := t.map fun ti =>
    s.amplitude * Real.exp (-(0.5 * ((ti - mu) ^ 2) / s.sigma ^ 2))
  let deriv_gauss_env := List.zipWith
    (fun ti g => s.motzoi * (-1) * (ti - mu) / s.sigma ^ 1 * g) t gauss_env
  let gauss_c := baselineCorrect gauss_env
  let deriv_c := baselineCorrect deriv_gauss_env
  let mods := apply_modulation gauss_c deriv_c
      ((tm.drop idx0).take (idx1 - idx0))
      s.mod_frequency s.phase s.phi_skew s.alpha
  let wf1 := if chan = s.I_channel then addSlice wf0 idx0 idx1 mods.1 else wf0
  if chan = s.Q_channel then addSlice wf1 idx0 idx1 mods.2 else wf1

/-- Modelled from the spec: the derivative-only sub-case of the single DRAG
pulse (§4.4, §4.5, §8).  Identical to `SSB_DRAG_pulse.chan_wf` except that
the transform call receives `(0, deriv)`: a zero array in place of the
Gaussian envelope, so only the derivative signal path is kept. -/
def SSB_DRAG_pulse.derivOnly_chan_wf (s : SSB_DRAG_pulse) (chan : String)
    (tvals : List ℝ) : List ℝ :=
  let t0 := tvals.getD 0 0
  let idx0 := npWhereFirstIdx (fun x => t0 ≤ x) tvals
  let idx1 := npWhereLastIdx (fun x => x ≤ t0 + s.length) tvals + 1
  let wf0 := List.replicate tvals.length (0 : ℝ)
  let t := tvals.map fun x => x - t0
  let mu := s.length / 2
  let tm := if s.phaselock then tvals else tvals.map fun x => x - tvals.getD idx0 0
  let gauss_env := t.map fun ti =>
    s.amplitude * Real.exp (-(0.5 * ((ti - mu) ^ 2) / s.sigma ^ 2))
  let deriv_gauss_env := List.zipWith
    (fun ti g => s.motzoi * (-1) * (ti - mu) / s.sigma ^ 1 * g) t gauss_env
  let deriv_c := baselineCorrect deriv_gauss_env
  let mods := apply_modulation (List.replicate tvals.length 0) deriv_c
      ((tm.drop idx0).take (idx1 - idx0))
      s.mod_frequency s.phase s.phi_skew s.alpha
  let wf1 := if chan = s.I_channel then addSlice wf0 idx0 idx1 mods.1 else wf0
  if chan = s.Q_channel then addSlice wf1 idx0 idx1 mods.2 else wf1

/-- Configuration record of `Mux_DRAG_pulse` (four-channel multiplexed
SSB DRAG pulse; deliberately flat, not sharing the `SSB_DRAG_pulse`
implementation). -/
structure Mux_DRAG_pulse where
  name : String
  start_offset : ℝ
  stop_offset : ℝ
  GI_channel : String
  GQ_channel : String
  DI_channel : String
  DQ_channel : String
  amplitude : ℝ
  sigma : ℝ
  nr_sigma : ℝ
  motzoi : ℝ
  mod_frequency : ℝ
  phase : ℝ
  phaselock : Bool
  G_alpha : ℝ
  G_phi_skew : ℝ
  D_alpha : ℝ
  D_phi_skew : ℝ
  length : ℝ

/-- Keyword arguments accepted by `Mux_DRAG_pulse.__init__` and
`Mux_DRAG_pulse.__call__`.  `motzoi` is popped by `__init__` but NOT by
`__call__` (lines 220-242), which silently ignores it. -/
structure MuxKw where
  GI_channel : Option String := none
  GQ_channel : Option String := none
  DI_channel : Option String := none
  DQ_channel : Option String := none
  amplitude : Option ℝ := none
  sigma : Option ℝ := none
  nr_sigma : Option ℝ := none
  motzoi : Option ℝ := none
  mod_frequency : Option ℝ := none
  phase : Option ℝ := none
  phaselock : Option Bool := none
  G_alpha : Option ℝ := none
  G_phi_skew : Option ℝ := none
  D_alpha : Option ℝ := none
  D_phi_skew : Option ℝ := none

/-- Embedding of `Mux_DRAG_pulse.__init__` (lines 188-218); channel defaults are
`'ch1'..'ch4'`, `motzoi` defaults to 1 and `length` is derived as
`sigma * nr_sigma` (line 218). -/
def Mux_DRAG_pulse.init (name : String) (GI_channel GQ_channel : String)
    (DI_channel DQ_channel : String) (kw : MuxKw) : Mux_DRAG_pulse :=
  let sigma := kw.sigma.getD 0.25e-6
  let nr_sigma := kw.nr_sigma.getD 4
  { name := name
    start_offset := 0
    stop_offset := 0
    GI_channel := GI_channel
    GQ_channel := GQ_channel
    DI_channel := DI_channel
    DQ_channel := DQ_channel
    amplitude := kw.amplitude.getD 0.1
    sigma := sigma
    nr_sigma := nr_sigma
    motzoi := kw.motzoi.getD 1
    mod_frequency := kw.mod_frequency.getD 1e6
    phase := kw.phase.getD 0
    phaselock := kw.phaselock.getD true
    G_alpha := kw.G_alpha.getD 1
    G_phi_skew := kw.G_phi_skew.getD 0
    D_alpha := kw.D_alpha.getD 1
    D_phi_skew := kw.D_phi_skew.getD 0
    length := sigma * nr_sigma }

/-- Embedding of `Mux_DRAG_pulse.__call__` (lines 220-242): selective parameter update.
`motzoi` is not popped there, so supplying it has no effect; `length` is
recomputed from the updated `sigma`, `nr_sigma` (line 241). -/
def Mux_DRAG_pulse.call (s : Mux_DRAG_pulse) (kw : MuxKw) : Mux_DRAG_pulse :=
  let sigma := kw.sigma.getD s.sigma
  let nr_sigma := kw.nr_sigma.getD s.nr_sigma
  { s with
    GI_channel := kw.GI_channel.getD s.GI_channel
    GQ_channel := kw.GQ_channel.getD s.GQ_channel
    DI_channel := kw.DI_channel.getD s.DI_channel
    DQ_channel := kw.DQ_channel.getD s.DQ_channel
    amplitude := kw.amplitude.getD s.amplitude
    sigma := sigma
    nr_sigma := nr_sigma
    mod_frequency := kw.mod_frequency.getD s.mod_frequency
    phase := kw.phase.getD s.phase
    phaselock := kw.phaselock.getD s.phaselock
    G_alpha := kw.G_alpha.getD s.G_alpha
    G_phi_skew := kw.G_phi_skew.getD s.G_phi_skew
    D_alpha := kw.D_alpha.getD s.D_alpha
    D_phi_skew := kw.D_phi_skew.getD s.D_phi_skew
    length := sigma * nr_sigma }

/-- Embedding of `self.channels = [GI, GQ, DI, DQ]` (lines 202, 225-226; `__call__`
rebuilds it from the current channel fields, so it always equals this
list). -/
def Mux_DRAG_pulse.channels (s : Mux_DRAG_pulse) : List String :=
  [s.GI_channel, s.GQ_channel, s.DI_channel, s.DQ_channel]

/-- Embedding of `Mux_DRAG_pulse.chan_wf` (lines 244-281).  `chan in [GI, GQ]` becomes
the disjunction of the two equalities, as does `chan in [DI, DQ]`. -/
def Mux_DRAG_pulse.chan_wf (s : Mux_DRAG_pulse) (chan : String)
    (tvals : List ℝ) : List ℝ :=
  let t0 := tvals.getD 0 0
  let idx0 := npWhereFirstIdx (fun x => t0 ≤ x) tvals
  let idx1 := npWhereLastIdx (fun x => x ≤ t0 + s.length) tvals + 1
  let wf0 := List.replicate tvals.length (0 : ℝ)
  let t := tvals.map fun x => x - t0
  let mu := s.length / 2
  let tm := if s.phaselock then tvals else tvals.map fun x => x - tvals.getD idx0 0
  let gauss_env := t.map fun ti =>
    s.amplitude * Real.exp (-(0.5 * ((ti - mu) ^ 2) / s.sigma ^ 2))
  if chan = s.GI_channel ∨ chan = s.GQ_channel then
    let gauss_c := baselineCorrect gauss_env
    let mods := apply_modulation gauss_c (List.replicate tvals.length 0)
        ((tm.drop idx0).take (idx1 - idx0))
        s.mod_frequency s.phase s.G_phi_skew s.G_alpha
    if chan = s.GI_channel then addSlice wf0 idx0 idx1 mods.1
    else addSlice wf0 idx0 idx1 mods.2
  else if chan = s.DI_channel ∨ chan = s.DQ_channel then
    let der_env := List.zipWith
      (fun ti g => s.motzoi * (-1) * (ti - mu) / s.sigma ^ 1 * g) t gauss_env
    let der_c := baselineCorrect der_env
    let mods := apply_modulation (List.replicate tvals.length 0) der_c
        ((tm.drop idx0).take (idx1 - idx0))
        s.mod_frequency s.phase s.D_phi_skew s.D_alpha
    if chan = s.DI_channel then addSlice wf0 idx0 idx1 mods.1
    else addSlice wf0 idx0 idx1 mods.2
  else wf0

/-- A block pulse instance built with all-default keyword arguments,
used to instantiate universally quantified theorems on concrete data. -/
def mwExample : MW_IQmod_pulse := MW_IQmod_pulse.init "mw" "chI" "chQ" {}

/-- A single DRAG pulse instance built with all-default keyword
arguments. -/
def ssbExample : SSB_DRAG_pulse := SSB_DRAG_pulse.init "ssb" "chI" "chQ" {}

/-- A multiplexed DRAG pulse instance built with all-default keyword
arguments. -/
def muxExample : Mux_DRAG_pulse :=
  Mux_DRAG_pulse.init "mux" "GI" "GQ" "DI" "DQ" {}

/-- A single DRAG pulse constructed with `motzoi = 0`, `mod_frequency = 0`
and `phase = 0` supplied. -/
def ssbUnmodExample : SSB_DRAG_pulse :=
  SSB_DRAG_pulse.init "ssb0" "I" "Q"
    { motzoi := some 0, mod_frequency := some 0, phase := some 0 }

/-- A single DRAG pulse constructed with `motzoi = 1` supplied (so that its
derivative weight matches the multiplexed pulse's default). -/
def ssbMotzoiExample : SSB_DRAG_pulse :=
  SSB_DRAG_pulse.init "ssb1" "chI" "chQ" { motzoi := some 1 }

/-! ## Helper lemmas -/

@[simp]
theorem zip3_cons (f : ℝ → ℝ → ℝ → ℝ) (a b c : ℝ) (as bs cs : List ℝ) :
    zip3 f (a :: as) (b :: bs) (c :: cs) = f a b c :: zip3 f as bs cs := rfl

@[simp]
theorem zip3_nil_left (f : ℝ → ℝ → ℝ → ℝ) (bs cs : List ℝ) :
    zip3 f [] bs cs = [] := rfl

@[simp]
theorem zip3_nil_mid (f : ℝ → ℝ → ℝ → ℝ) (a : ℝ) (as cs : List ℝ) :
    zip3 f (a :: as) [] cs = [] := rfl

@[simp]
theorem zip3_nil_right (f : ℝ → ℝ → ℝ → ℝ) (a b : ℝ) (as bs : List ℝ) :
    zip3 f (a :: as) (b :: bs) [] = [] := rfl

theorem zip3_congr (f g : ℝ → ℝ → ℝ → ℝ) (h : ∀ a b c, f a b c = g a b c) :
    ∀ as bs cs : List ℝ, zip3 f as bs cs = zip3 g as bs cs
  | a :: as, b :: bs, c :: cs => by
      simp [h a b c, zip3_congr f g h as bs cs]
  | [], _, _ => rfl
  | _ :: _, [], _ => rfl
  | _ :: _, _ :: _, [] => rfl

theorem getD_map_lt (f : ℝ → ℝ) (l : List ℝ) (i : ℕ) (h : i < l.length)
    (d : ℝ) : (l.map f).getD i d = f (l.getD i d) := by
  rw [List.getD_eq_getElem _ _ (by simpa using h), List.getD_eq_getElem _ _ h]
  simp

theorem getD_range_map (n : ℕ) (f : ℕ → ℝ) (i : ℕ) (h : i < n) (d : ℝ) :
    ((List.range n).map f).getD i d = f i := by
  rw [List.getD_eq_getElem _ _ (by simpa using h)]
  simp

theorem getD_replicate_zero (n i : ℕ) :
    (List.replicate n (0 : ℝ)).getD i 0 = 0 := by
  rcases Nat.lt_or_ge i n with h | h
  · rw [List.getD_eq_getElem _ _ (by simpa using h)]
    simp
  · exact List.getD_eq_default _ _ (by simpa using h)

@[simp]
theorem addSlice_length (wf : List ℝ) (idx0 idx1 : ℕ) (v : List ℝ) :
    (addSlice wf idx0 idx1 v).length = wf.length := by
  simp [addSlice]

theorem getD_addSlice_outside (wf : List ℝ) (idx0 idx1 : ℕ) (v : List ℝ)
    (i : ℕ) (h : i < idx0 ∨ idx1 ≤ i) :
    (addSlice wf idx0 idx1 v).getD i 0 = wf.getD i 0 := by
  rcases Nat.lt_or_ge i wf.length with hi | hi
  · rw [addSlice, getD_range_map _ _ _ hi]
    rw [if_neg (by omega)]
  · rw [List.getD_eq_default _ _ (by simpa using hi),
      List.getD_eq_default _ _ (by simpa using hi)]

theorem getD_addSlice_zero (wf : List ℝ) (idx0 idx1 : ℕ) (v : List ℝ)
    (hw : ∀ j, wf.getD j 0 = 0) (hv : ∀ j, v.getD j 0 = 0) (i : ℕ) :
    (addSlice wf idx0 idx1 v).getD i 0 = 0 := by
  rcases Nat.lt_or_ge i wf.length with hi | hi
  · rw [addSlice, getD_range_map _ _ _ hi]
    split
    · rw [hw i, hv (i - idx0), add_zero]
    · exact hw i
  · exact List.getD_eq_default _ _ (by simpa using hi)

theorem zip3_getD_zero_of_mid_zero (f : ℝ → ℝ → ℝ → ℝ)
    (hf : ∀ a c, f a 0 c = 0) :
    ∀ (as bs cs : List ℝ), (∀ j, bs.getD j 0 = 0) →
      ∀ i, (zip3 f as bs cs).getD i 0 = 0
  | a :: as, b :: bs, c :: cs, hb, i => by
      match i with
      | 0 =>
          have hb0 : b = 0 := by simpa using hb 0
          simpa [hb0] using hf a c
      | i + 1 =>
          have hb' : ∀ j, bs.getD j 0 = 0 := fun j => by simpa using hb (j + 1)
          simpa using zip3_getD_zero_of_mid_zero f hf as bs cs hb' i
  | [], _, _, _, i => by simp
  | _ :: _, [], _, _, i => by simp
  | _ :: _, _ :: _, [], _, i => by simp

@[simp]
theorem baselineCorrect_length (e : List ℝ) :
    (baselineCorrect e).length = e.length := by
  simp [baselineCorrect]

theorem baselineCorrect_getD_zero (e : List ℝ) (he : ∀ j, e.getD j 0 = 0)
    (j : ℕ) : (baselineCorrect e).getD j 0 = 0 := by
  rcases Nat.lt_or_ge j e.length with hj | hj
  · rw [baselineCorrect, getD_map_lt _ _ _ hj]
    rw [he j, he 0, he (e.length - 1)]
    norm_num
  · exact List.getD_eq_default _ _ (by simpa using hj)

theorem baselineCorrect_replicate_zero (m : ℕ) :
    baselineCorrect (List.replicate m (0 : ℝ)) = List.replicate m 0 := by
  rw [baselineCorrect, List.map_replicate, getD_replicate_zero,
    getD_replicate_zero]
  norm_num

theorem zipWith_deriv_zero (mu sg : ℝ) :
    ∀ (t gs : List ℝ),
      List.zipWith (fun ti g => (0 : ℝ) * (-1) * (ti - mu) / sg ^ 1 * g) t gs
        = List.replicate (min t.length gs.length) 0
  | [], gs => by simp
  | a :: t, [] => by simp
  | a :: t, b :: gs => by
      rw [List.zipWith_cons_cons, zipWith_deriv_zero mu sg t gs,
        show (a :: t).length ⊓ (b :: gs).length = (t.length ⊓ gs.length) + 1 by
          simpa using Nat.succ_min_succ t.length gs.length,
        List.replicate_succ]
      norm_num

/-! ## Claim theorems -/

/-- C1: for every pair of envelope arrays and every time array, with
`alpha = 1` and `phi_skew = 0` the §4.1 modulation/predistortion transform
yields, elementwise with `x(t) = 2π·mod_frequency·t + phase·π/180`, plain
SSB modulation: `mod_I = env_I·cos x + env_Q·sin x` and
`mod_Q = −env_I·sin x + env_Q·cos x`. -/
theorem apply_modulation_alpha_one_skew_zero_is_plain_ssb
    (env_I env_Q t : List ℝ) (mod_frequency phase : ℝ) :
    apply_modulation env_I env_Q t mod_frequency phase 0 1 =
      (zip3 (fun eI eQ ti =>
          eI * Real.cos (2 * Real.pi * mod_frequency * ti + phase * Real.pi / 180)
            + eQ * Real.sin (2 * Real.pi * mod_frequency * ti + phase * Real.pi / 180))
        env_I env_Q t,
       zip3 (fun eI eQ ti =>
          -eI * Real.sin (2 * Real.pi * mod_frequency * ti + phase * Real.pi / 180)
            + eQ * Real.cos (2 * Real.pi * mod_frequency * ti + phase * Real.pi / 180))
        env_I env_Q t) := by
  unfold apply_modulation
  simp only [Prod.mk.injEq]
  constructor <;>
    · apply zip3_congr
      intro a b c
      simp [Real.tan_zero]
      ring

/-- C4 counterexample: reconfiguring a default-constructed single DRAG
pulse with `alpha = 2` supplied does not store 2: `__call__` never pops
`alpha`, so the stored value stays at 1. -/
theorem ssb_call_alpha_not_stored_counterexample :
    (SSB_DRAG_pulse.call
        { name := "ssb", start_offset := 0, stop_offset := 0,
          I_channel := "I", Q_channel := "Q", amplitude := 0.1,
          sigma := 0.25e-6, nr_sigma := 4, motzoi := 0,
          mod_frequency := 1e6, phase := 0, phaselock := true,
          alpha := 1, phi_skew := 0, length := 1e-6 }
        { alpha := some 2 }).alpha ≠ 2 := by
  norm_num [SSB_DRAG_pulse.call]

/-- C4 (amended): Reconfigure stores exactly the supplied value for every
parameter its update operation handles — all spec-listed parameters for
the block pulse, and all except `alpha`/`phi_skew` (single DRAG) and
`motzoi` (multiplexed DRAG), which Reconfigure silently ignores so that
the prior stored value is retained. -/
theorem reconfigure_stores_handled_parameters
    (smw : MW_IQmod_pulse) (kwm : MWKw) (sssb : SSB_DRAG_pulse) (kws : SSBKw)
    (smux : Mux_DRAG_pulse) (kwx : MuxKw) :
    ((smw.call kwm).mod_frequency = kwm.mod_frequency.getD smw.mod_frequency ∧
      (smw.call kwm).amplitude = kwm.amplitude.getD smw.amplitude ∧
      (smw.call kwm).length = kwm.length.getD smw.length ∧
      (smw.call kwm).phase = kwm.phase.getD smw.phase ∧
      (smw.call kwm).phaselock = kwm.phaselock.getD smw.phaselock ∧
      (smw.call kwm).alpha = kwm.alpha.getD smw.alpha ∧
      (smw.call kwm).phi_skew = kwm.phi_skew.getD smw.phi_skew) ∧
    ((sssb.call kws).amplitude = kws.amplitude.getD sssb.amplitude ∧
      (sssb.call kws).sigma = kws.sigma.getD sssb.sigma ∧
      (sssb.call kws).nr_sigma = kws.nr_sigma.getD sssb.nr_sigma ∧
      (sssb.call kws).motzoi = kws.motzoi.getD sssb.motzoi ∧
      (sssb.call kws).mod_frequency = kws.mod_frequency.getD sssb.mod_frequency ∧
      (sssb.call kws).phase = kws.phase.getD sssb.phase ∧
      (sssb.call kws).phaselock = kws.phaselock.getD sssb.phaselock ∧
      (sssb.call kws).alpha = sssb.alpha ∧
      (sssb.call kws).phi_skew = sssb.phi_skew) ∧
    ((smux.call kwx).amplitude = kwx.amplitude.getD smux.amplitude ∧
      (smux.call kwx).sigma = kwx.sigma.getD smux.sigma ∧
      (smux.call kwx).nr_sigma = kwx.nr_sigma.getD smux.nr_sigma ∧
      (smux.call kwx).mod_frequency = kwx.mod_frequency.getD smux.mod_frequency ∧
      (smux.call kwx).phase = kwx.phase.getD smux.phase ∧
      (smux.call kwx).phaselock = kwx.phaselock.getD smux.phaselock ∧
      (smux.call kwx).G_alpha = kwx.G_alpha.getD smux.G_alpha ∧
      (smux.call kwx).G_phi_skew = kwx.G_phi_skew.getD smux.G_phi_skew ∧
      (smux.call kwx).D_alpha = kwx.D_alpha.getD smux.D_alpha ∧
      (smux.call kwx).D_phi_skew = kwx.D_phi_skew.getD smux.D_phi_skew ∧
      (smux.call kwx).GI_channel = kwx.GI_channel.getD smux.GI_channel ∧
      (smux.call kwx).GQ_channel = kwx.GQ_channel.getD smux.GQ_channel ∧
      (smux.call kwx).DI_channel = kwx.DI_channel.getD smux.DI_channel ∧
      (smux.call kwx).DQ_channel = kwx.DQ_channel.getD smux.DQ_channel ∧
      (smux.call kwx).motzoi = smux.motzoi) :=
  ⟨⟨rfl, rfl, rfl, rfl, rfl, rfl, rfl⟩,
   ⟨rfl, rfl, rfl, rfl, rfl, rfl, rfl, rfl, rfl⟩,
   ⟨rfl, rfl, rfl, rfl, rfl, rfl, rfl, rfl, rfl, rfl, rfl, rfl, rfl, rfl,
    rfl⟩⟩

/-- C7: for every nonempty envelope array, after baseline correction the
first and last entries sum to zero exactly.  (Both the Gaussian and the
derivative envelope are passed through `baselineCorrect` before modulation
in `SSB_DRAG_pulse.chan_wf` and `Mux_DRAG_pulse.chan_wf`.) -/
theorem baselineCorrect_edge_sum_zero (e : List ℝ) (h : e ≠ []) :
    (baselineCorrect e).getD 0 0 +
      (baselineCorrect e).getD ((baselineCorrect e).length - 1) 0 = 0 := by
  have hlen : 0 < e.length := List.length_pos.mpr h
  have hlast : e.length - 1 < e.length := by omega
  simp only [baselineCorrect_length, baselineCorrect, List.length_map]
  rw [getD_map_lt _ _ _ hlen, getD_map_lt _ _ _ hlast]
  ring

/-- Witness for C7 at the concrete envelope `[1, 2]`. -/
theorem baselineCorrect_edge_sum_zero_witness :
    ([1, 2] : List ℝ) ≠ [] ∧
      (baselineCorrect [1, 2]).getD 0 0 +
        (baselineCorrect [1, 2]).getD ((baselineCorrect [1, 2]).length - 1) 0
        = 0 :=
  ⟨by simp, baselineCorrect_edge_sum_zero [1, 2] (by simp)⟩

/-- C8: for the Gaussian/DRAG family (single and multiplexed), after
construction and after every parameter update the stored `length` equals
`sigma * nr_sigma` computed from the current values. -/
theorem drag_length_invariant :
    (∀ (name I Q : String) (kw : SSBKw),
        (SSB_DRAG_pulse.init name I Q kw).length =
          (SSB_DRAG_pulse.init name I Q kw).sigma *
            (SSB_DRAG_pulse.init name I Q kw).nr_sigma) ∧
    (∀ (s : SSB_DRAG_pulse) (kw : SSBKw),
        (s.call kw).length = (s.call kw).sigma * (s.call kw).nr_sigma) ∧
    (∀ (name GI GQ DI DQ : String) (kw : MuxKw),
        (Mux_DRAG_pulse.init name GI GQ DI DQ kw).length =
          (Mux_DRAG_pulse.init name GI GQ DI DQ kw).sigma *
            (Mux_DRAG_pulse.init name GI GQ DI DQ kw).nr_sigma) ∧
    (∀ (s : Mux_DRAG_pulse) (kw : MuxKw),
        (s.call kw).length = (s.call kw).sigma * (s.call kw).nr_sigma) := by
  refine ⟨?_, ?_, ?_, ?_⟩ <;> intros <;> rfl

/-- C9: reconfiguring any pulse with only the amplitude key supplied leaves
every other configuration parameter, the channel assignment and the derived
duration unchanged (the duration of the DRAG family is recomputed as
`sigma * nr_sigma`, so it is unchanged whenever the stored duration already
satisfied that invariant, which holds in every reachable state by C8). -/
theorem reconfigure_amplitude_only_frame
    (smw : MW_IQmod_pulse) (sssb : SSB_DRAG_pulse) (smux : Mux_DRAG_pulse)
    (a : ℝ)
    (hssb : sssb.length = sssb.sigma * sssb.nr_sigma)
    (hmux : smux.length = smux.sigma * smux.nr_sigma) :
    ((smw.call { amplitude := some a }).mod_frequency = smw.mod_frequency ∧
      (smw.call { amplitude := some a }).length = smw.length ∧
      (smw.call { amplitude := some a }).phase = smw.phase ∧
      (smw.call { amplitude := some a }).phaselock = smw.phaselock ∧
      (smw.call { amplitude := some a }).alpha = smw.alpha ∧
      (smw.call { amplitude := some a }).phi_skew = smw.phi_skew ∧
      (smw.call { amplitude := some a }).channels = smw.channels ∧
      (smw.call { amplitude := some a }).amplitude = a) ∧
    ((sssb.call { amplitude := some a }).sigma = sssb.sigma ∧
      (sssb.call { amplitude := some a }).nr_sigma = sssb.nr_sigma ∧
      (sssb.call { amplitude := some a }).motzoi = sssb.motzoi ∧
      (sssb.call { amplitude := some a }).mod_frequency = sssb.mod_frequency ∧
      (sssb.call { amplitude := some a }).phase = sssb.phase ∧
      (sssb.call { amplitude := some a }).phaselock = sssb.phaselock ∧
      (sssb.call { amplitude := some a }).alpha = sssb.alpha ∧
      (sssb.call { amplitude := some a }).phi_skew = sssb.phi_skew ∧
      (sssb.call { amplitude := some a }).channels = sssb.channels ∧
      (sssb.call { amplitude := some a }).length = sssb.length ∧
      (sssb.call { amplitude := some a }).amplitude = a) ∧
    ((smux.call { amplitude := some a }).sigma = smux.sigma ∧
      (smux.call { amplitude := some a }).nr_sigma = smux.nr_sigma ∧
      (smux.call { amplitude := some a }).motzoi = smux.motzoi ∧
      (smux.call { amplitude := some a }).mod_frequency = smux.mod_frequency ∧
      (smux.call { amplitude := some a }).phase = smux.phase ∧
      (smux.call { amplitude := some a }).phaselock = smux.phaselock ∧
      (smux.call { amplitude := some a }).G_alpha = smux.G_alpha ∧
      (smux.call { amplitude := some a }).G_phi_skew = smux.G_phi_skew ∧
      (smux.call { amplitude := some a }).D_alpha = smux.D_alpha ∧
      (smux.call { amplitude := some a }).D_phi_skew = smux.D_phi_skew ∧
      (smux.call { amplitude := some a }).channels = smux.channels ∧
      (smux.call { amplitude := some a }).length = smux.length ∧
      (smux.call { amplitude := some a }).amplitude = a) :=
  ⟨⟨rfl, rfl, rfl, rfl, rfl, rfl, rfl, rfl⟩,
   ⟨rfl, rfl, rfl, rfl, rfl, rfl, rfl, rfl, rfl, hssb.symm, rfl⟩,
   ⟨rfl, rfl, rfl, rfl, rfl, rfl, rfl, rfl, rfl, rfl, rfl, hmux.symm, rfl⟩⟩

/-- Witness for C9: concrete default-constructed pulses (whose stored
durations satisfy the `sigma * nr_sigma` invariant) reconfigured with only
`amplitude = 0.2`. -/
theorem reconfigure_amplitude_only_frame_witness :
    ssbExample.length = ssbExample.sigma * ssbExample.nr_sigma ∧
    muxExample.length = muxExample.sigma * muxExample.nr_sigma ∧
    (ssbExample.call { amplitude := some 0.2 }).length = ssbExample.length ∧
    (mwExample.call { amplitude := some 0.2 }).phase = mwExample.phase ∧
    (muxExample.call { amplitude := some 0.2 }).motzoi = muxExample.motzoi := by
  have h1 : ssbExample.length = ssbExample.sigma * ssbExample.nr_sigma := rfl
  have h2 : muxExample.length = muxExample.sigma * muxExample.nr_sigma := rfl
  have h := reconfigure_amplitude_only_frame mwExample ssbExample muxExample
    0.2 h1 h2
  exact ⟨h1, h2, h.2.1.2.2.2.2.2.2.2.2.2.1, h.1.2.2.1, h.2.2.2.2.1⟩

/-- C10: the block pulse's waveform does not depend on its `amplitude`
parameter — for any two amplitude values and otherwise identical
configuration, channel and time grid, `MW_IQmod_pulse.chan_wf` returns
identical arrays (the envelope handed to the transform is the constant
array of ones; `amplitude` is never read). -/
theorem mw_chan_wf_independent_of_amplitude (s : MW_IQmod_pulse)
    (a₁ a₂ : ℝ) (chan : String) (tvals : List ℝ) :
    MW_IQmod_pulse.chan_wf { s with amplitude := a₁ } chan tvals =
      MW_IQmod_pulse.chan_wf { s with amplitude := a₂ } chan tvals := rfl

/-- C6: for every pulse type and every channel identifier the pulse does
not own, `chan_wf` returns the all-zero array of the grid's length (and,
being a total function, raises no error). -/
theorem unknown_channel_zero_waveform
    (smw : MW_IQmod_pulse) (sssb : SSB_DRAG_pulse) (smux : Mux_DRAG_pulse)
    (chan : String) (tvals : List ℝ) :
    (chan ∉ smw.channels →
        smw.chan_wf chan tvals = List.replicate tvals.length 0) ∧
    (chan ∉ sssb.channels →
        sssb.chan_wf chan tvals = List.replicate tvals.length 0) ∧
    (chan ∉ smux.channels →
        smux.chan_wf chan tvals = List.replicate tvals.length 0) := by
  refine ⟨?_, ?_, ?_⟩ <;> intro h
  · simp only [MW_IQmod_pulse.channels, List.mem_cons, List.not_mem_nil,
      or_false, not_or] at h
    simp [MW_IQmod_pulse.chan_wf, h.1, h.2]
  · simp only [SSB_DRAG_pulse.channels, List.mem_cons, List.not_mem_nil,
      or_false, not_or] at h
    simp [SSB_DRAG_pulse.chan_wf, h.1, h.2]
  · simp only [Mux_DRAG_pulse.channels, List.mem_cons, List.not_mem_nil,
      or_false, not_or] at h
    simp [Mux_DRAG_pulse.chan_wf, h.1, h.2.1, h.2.2.1, h.2.2.2]

/-- Witness for C6: the channel name "X" is owned by none of the three
concrete default pulses, and each returns the all-zero one-sample array on
the grid `[0]`. -/
theorem unknown_channel_zero_waveform_witness :
    "X" ∉ mwExample.channels ∧ "X" ∉ ssbExample.channels ∧
      "X" ∉ muxExample.channels ∧
      mwExample.chan_wf "X" [0] = List.replicate 1 0 ∧
      ssbExample.chan_wf "X" [0] = List.replicate 1 0 ∧
      muxExample.chan_wf "X" [0] = List.replicate 1 0 := by
  have h1 : "X" ∉ mwExample.channels := by
    simp [mwExample, MW_IQmod_pulse.init, MW_IQmod_pulse.channels]
  have h2 : "X" ∉ ssbExample.channels := by
    simp [ssbExample, SSB_DRAG_pulse.init, SSB_DRAG_pulse.channels]
  have h3 : "X" ∉ muxExample.channels := by
    simp [muxExample, Mux_DRAG_pulse.init, Mux_DRAG_pulse.channels]
  have h := unknown_channel_zero_waveform mwExample ssbExample muxExample
    "X" [0]
  exact ⟨h1, h2, h3, by simpa using h.1 h1, by simpa using h.2.1 h2,
    by simpa using h.2.2 h3⟩

/-- C2: for every pulse type, channel and time grid, `chan_wf` returns an
array of the same length as the grid whose entries vanish at every index
outside the active window `[idx0, idx1)`, where `idx0` is the first index
with `tvals ≥ tvals[0]` and `idx1` is one past the last index with
`tvals ≤ tvals[0] + length` (`npWhereFirstIdx` / `npWhereLastIdx` embed
exactly those `np.where` expressions).  This holds for every channel, in
particular for every owned channel, and for every grid, in particular
non-empty non-decreasing ones. -/
theorem chan_wf_length_and_zero_outside_window
    (smw : MW_IQmod_pulse) (sssb : SSB_DRAG_pulse) (smux : Mux_DRAG_pulse)
    (chan : String) (tvals : List ℝ) :
    ((smw.chan_wf chan tvals).length = tvals.length ∧
      ∀ i, (i < npWhereFirstIdx (fun x => tvals.getD 0 0 ≤ x) tvals ∨
          npWhereLastIdx (fun x => x ≤ tvals.getD 0 0 + smw.length) tvals + 1
            ≤ i) →
        (smw.chan_wf chan tvals).getD i 0 = 0) ∧
    ((sssb.chan_wf chan tvals).length = tvals.length ∧
      ∀ i, (i < npWhereFirstIdx (fun x => tvals.getD 0 0 ≤ x) tvals ∨
          npWhereLastIdx (fun x => x ≤ tvals.getD 0 0 + sssb.length) tvals + 1
            ≤ i) →
        (sssb.chan_wf chan tvals).getD i 0 = 0) ∧
    ((smux.chan_wf chan tvals).length = tvals.length ∧
      ∀ i, (i < npWhereFirstIdx (fun x => tvals.getD 0 0 ≤ x) tvals ∨
          npWhereLastIdx (fun x => x ≤ tvals.getD 0 0 + smux.length) tvals + 1
            ≤ i) →
        (smux.chan_wf chan tvals).getD i 0 = 0) := by
  refine ⟨⟨?_, ?_⟩, ⟨?_, ?_⟩, ⟨?_, ?_⟩⟩
  · simp only [MW_IQmod_pulse.chan_wf]
    split_ifs <;> simp
  · intro i hi
    simp only [MW_IQmod_pulse.chan_wf]
    split_ifs <;>
      first
        | rw [getD_addSlice_outside _ _ _ _ i hi]
          exact getD_replicate_zero _ _
        | exact getD_replicate_zero _ _
  · simp only [SSB_DRAG_pulse.chan_wf]
    split_ifs <;> simp
  · intro i hi
    simp only [SSB_DRAG_pulse.chan_wf]
    split_ifs <;>
      first
        | rw [getD_addSlice_outside _ _ _ _ i hi,
            getD_addSlice_outside _ _ _ _ i hi]
          exact getD_replicate_zero _ _
        | rw [getD_addSlice_outside _ _ _ _ i hi]
          exact getD_replicate_zero _ _
        | exact getD_replicate_zero _ _
  · simp only [Mux_DRAG_pulse.chan_wf]
    split_ifs <;> simp
  · intro i hi
    simp only [Mux_DRAG_pulse.chan_wf]
    split_ifs <;>
      first
        | rw [getD_addSlice_outside _ _ _ _ i hi]
          exact getD_replicate_zero _ _
        | exact getD_replicate_zero _ _

/-- C3 counterexample: a single DRAG pulse with `motzoi = 0` but
`mod_frequency = 1/4` on the non-decreasing grid `[0, 1]` has a nonzero
Q-channel sample at index 1: with `motzoi = 0` the derivative envelope
vanishes, but the Q output still carries `−sin(x)·gauss/(alpha·cos φ)`,
and `sin(x) = sin(π/2) = 1` at `t = 1`. -/
theorem ssb_motzoi_zero_q_nonzero_counterexample :
    (SSB_DRAG_pulse.chan_wf
        { name := "ssb", start_offset := 0, stop_offset := 0,
          I_channel := "I", Q_channel := "Q", amplitude := 1, sigma := 1,
          nr_sigma := 4, motzoi := 0, mod_frequency := 1/4, phase := 0,
          phaselock := true, alpha := 1, phi_skew := 0, length := 4 }
        "Q" [0, 1]).getD 1 0 ≠ 0 := by
  have hx : 2 * Real.pi * (1 / 4 : ℝ) = Real.pi / 2 := by
    ring
  norm_num [SSB_DRAG_pulse.chan_wf, apply_modulation, npWhereFirstIdx,
    npWhereLastIdx, baselineCorrect, addSlice, zip3, List.range_succ, hx,
    Real.sin_pi_div_two, Real.cos_pi_div_two,
    (show ("Q" : String) ≠ "I" by decide)]
  intro hcon
  have h2 : Real.exp (-2) < Real.exp (-(1 / 2 : ℝ)) := by
    apply Real.exp_lt_exp.mpr
    norm_num
  linarith

/-- C3 (amended): for the single Gaussian/DRAG pulse with distinct I/Q
channels, `motzoi = 0` makes the derivative (Q-)envelope identically zero,
and the Q-channel waveform is identically zero at every sample provided
additionally the modulation is trivial: `mod_frequency = 0` and
`phase = 0` (otherwise the Q channel still carries
`−sin(x)·gauss/(alpha·cos φ)`, see the counterexample). -/
theorem ssb_motzoi_zero_unmodulated_q_zero (s : SSB_DRAG_pulse)
    (tvals : List ℝ) (hIQ : s.I_channel ≠ s.Q_channel)
    (hm : s.motzoi = 0) (hf : s.mod_frequency = 0) (hp : s.phase = 0) :
    ∀ i, (s.chan_wf s.Q_channel tvals).getD i 0 = 0 := by
  intro i
  simp only [SSB_DRAG_pulse.chan_wf, apply_modulation]
  rw [hm, hf, hp, zipWith_deriv_zero, baselineCorrect_replicate_zero]
  split_ifs with h1 h2 h3
  all_goals try exact (hIQ h2.symm).elim
  all_goals try exact (h1 trivial).elim
  all_goals
    refine getD_addSlice_zero _ _ _ _
      (fun j => getD_replicate_zero _ _) ?_ i
  all_goals intro j
  all_goals
    refine zip3_getD_zero_of_mid_zero _ ?_ _ _ _
      (fun k => getD_replicate_zero _ _) j
  all_goals intro a c
  all_goals simp

/-- Witness for the amended C3 at a concrete unmodulated pulse on the grid
`[0, 1]`, sample 0. -/
theorem ssb_motzoi_zero_unmodulated_q_zero_witness :
    (ssbUnmodExample.I_channel ≠ ssbUnmodExample.Q_channel ∧
      ssbUnmodExample.motzoi = 0 ∧ ssbUnmodExample.mod_frequency = 0 ∧
      ssbUnmodExample.phase = 0) ∧
    (ssbUnmodExample.chan_wf ssbUnmodExample.Q_channel [0, 1]).getD 0 0
      = 0 :=
  ⟨⟨by decide, rfl, rfl, rfl⟩,
   ssb_motzoi_zero_unmodulated_q_zero ssbUnmodExample [0, 1] (by decide)
     rfl rfl rfl 0⟩

/-- C5: with `G_alpha = D_alpha = 1` and `G_phi_skew = D_phi_skew = 0`, and
a single DRAG pulse (with `alpha = 1`, `phi_skew = 0`) agreeing on
amplitude, sigma, nr_sigma, duration, modulation frequency, phase,
phase-lock and derivative weight, the multiplexed pulse produces on GI/GQ
exactly the single DRAG pulse's Gaussian-only sub-case (`motzoi = 0`)
waveforms for I/Q, and on DI/DQ the derivative-only sub-case waveforms,
for every time grid (channel names assumed pairwise distinct as in any
physical configuration). -/
theorem mux_drag_refines_single_drag_subcases
    (smux : Mux_DRAG_pulse) (sssb : SSB_DRAG_pulse) (tvals : List ℝ)
    (hA : smux.amplitude = sssb.amplitude)
    (hS : smux.sigma = sssb.sigma)
    (hN : smux.nr_sigma = sssb.nr_sigma)
    (hL : smux.length = sssb.length)
    (hF : smux.mod_frequency = sssb.mod_frequency)
    (hP : smux.phase = sssb.phase)
    (hPL : smux.phaselock = sssb.phaselock)
    (hM : smux.motzoi = sssb.motzoi)
    (hGa : smux.G_alpha = 1) (hGp : smux.G_phi_skew = 0)
    (hDa : smux.D_alpha = 1) (hDp : smux.D_phi_skew = 0)
    (hsa : sssb.alpha = 1) (hsp : sssb.phi_skew = 0)
    (hGG : smux.GQ_channel ≠ smux.GI_channel)
    (hDGI : smux.DI_channel ≠ smux.GI_channel)
    (hDGQ : smux.DI_channel ≠ smux.GQ_channel)
    (hQGI : smux.DQ_channel ≠ smux.GI_channel)
    (hQGQ : smux.DQ_channel ≠ smux.GQ_channel)
    (hQD : smux.DQ_channel ≠ smux.DI_channel)
    (hIQ : sssb.I_channel ≠ sssb.Q_channel) :
    smux.chan_wf smux.GI_channel tvals =
        SSB_DRAG_pulse.chan_wf { sssb with motzoi := 0 }
          sssb.I_channel tvals ∧
      smux.chan_wf smux.GQ_channel tvals =
        SSB_DRAG_pulse.chan_wf { sssb with motzoi := 0 }
          sssb.Q_channel tvals ∧
      smux.chan_wf smux.DI_channel tvals =
        sssb.derivOnly_chan_wf sssb.I_channel tvals ∧
      smux.chan_wf smux.DQ_channel tvals =
        sssb.derivOnly_chan_wf sssb.Q_channel tvals := by
  refine ⟨?_, ?_, ?_, ?_⟩ <;>
    · simp only [Mux_DRAG_pulse.chan_wf, SSB_DRAG_pulse.chan_wf,
        SSB_DRAG_pulse.derivOnly_chan_wf]
      simp only [hA, hS, hL, hF, hP, hPL, hM, hGa, hGp, hDa, hDp, hsa, hsp]
      simp only [eq_self_iff_true, true_or, or_true, if_true, hGG, hDGI,
        hDGQ, hQGI, hQGQ, hQD, Ne.symm hIQ, hIQ, or_self, or_false,
        false_or, if_false]
      try rw [zipWith_deriv_zero, baselineCorrect_replicate_zero]
      try simp only [List.length_map, Nat.min_self]

/-- Witness for C5: the default multiplexed pulse against a single DRAG
pulse constructed with `motzoi = 1`, on the grid `[0]`. -/
theorem mux_drag_refines_single_drag_subcases_witness :
    (muxExample.amplitude = ssbMotzoiExample.amplitude ∧
      muxExample.sigma = ssbMotzoiExample.sigma ∧
      muxExample.nr_sigma = ssbMotzoiExample.nr_sigma ∧
      muxExample.length = ssbMotzoiExample.length ∧
      muxExample.mod_frequency = ssbMotzoiExample.mod_frequency ∧
      muxExample.phase = ssbMotzoiExample.phase ∧
      muxExample.phaselock = ssbMotzoiExample.phaselock ∧
      muxExample.motzoi = ssbMotzoiExample.motzoi ∧
      muxExample.G_alpha = 1 ∧ muxExample.G_phi_skew = 0 ∧
      muxExample.D_alpha = 1 ∧ muxExample.D_phi_skew = 0 ∧
      ssbMotzoiExample.alpha = 1 ∧ ssbMotzoiExample.phi_skew = 0 ∧
      muxExample.GQ_channel ≠ muxExample.GI_channel ∧
      muxExample.DI_channel ≠ muxExample.GI_channel ∧
      muxExample.DI_channel ≠ muxExample.GQ_channel ∧
      muxExample.DQ_channel ≠ muxExample.GI_channel ∧
      muxExample.DQ_channel ≠ muxExample.GQ_channel ∧
      muxExample.DQ_channel ≠ muxExample.DI_channel ∧
      ssbMotzoiExample.I_channel ≠ ssbMotzoiExample.Q_channel) ∧
    (muxExample.chan_wf muxExample.GI_channel [0] =
        SSB_DRAG_pulse.chan_wf { ssbMotzoiExample with motzoi := 0 }
          ssbMotzoiExample.I_channel [0] ∧
      muxExample.chan_wf muxExample.GQ_channel [0] =
        SSB_DRAG_pulse.chan_wf { ssbMotzoiExample with motzoi := 0 }
          ssbMotzoiExample.Q_channel [0] ∧
      muxExample.chan_wf muxExample.DI_channel [0] =
        ssbMotzoiExample.derivOnly_chan_wf ssbMotzoiExample.I_channel [0] ∧
      muxExample.chan_wf muxExample.DQ_channel [0] =
        ssbMotzoiExample.derivOnly_chan_wf ssbMotzoiExample.Q_channel [0]) :=
  ⟨⟨rfl, rfl, rfl, rfl, rfl, rfl, rfl, rfl, rfl, rfl, rfl, rfl, rfl, rfl,
    by decide, by decide, by decide, by decide, by decide, by decide,
    by decide⟩,
   mux_drag_refines_single_drag_subcases muxExample ssbMotzoiExample [0]
     rfl rfl rfl rfl rfl rfl rfl rfl rfl rfl rfl rfl rfl rfl
     (by decide) (by decide) (by decide) (by decide) (by decide)
     (by decide) (by decide)⟩

end
